import Mathlib

/-!
# Verification of the botpress dialog-engine core

Shallow embedding of the `InstructionFactory` instruction compiler
(from the dialog service) and of the `Botpress` service wiring
(`initializeServices` / `formatError` in `core/botpress.ts`), together
with proofs of the specified properties.

Conventions of the embedding:
* A TypeScript field that may be `undefined` or `null` is an `Option`;
  `none` covers both absence and `null` (the source reads such fields
  through `_.get(_, _, [])` followed by `|| []`, which conflates the two).
* A possibly-`null`/absent `flow` argument is `Option (Flow α β)`.
* Instruction objects `{ type, fn?, node? }` become a structure with
  optional `fn` and `node` fields, mirroring the literal objects built
  by the source.
-/

namespace Botpress

/-- The `type` discriminant of a compiled instruction
(`'on-enter' | 'on-receive' | 'transition' | 'wait'`). -/
inductive InstructionType : Type
  | onEnter
  | onReceive
  | transition
  | wait
deriving DecidableEq, Repr

/-- A compiled instruction `{ type, fn?, node? }`.  `α` is the type of
action/condition payloads, `β` the type of destination-node references. -/
structure Instruction (α β : Type) : Type where
  type : InstructionType
  fn : Option α := none
  node : Option β := none
deriving DecidableEq, Repr

/-- One entry of a `next` list: `{ condition, node }`. -/
structure TransitionEntry (α β : Type) : Type where
  condition : α
  node : β
deriving DecidableEq, Repr

/-- The `catchAll` handler set of a flow:
`{ onReceive?: Action[], next?: {condition, node}[] }`. -/
structure CatchAll (α β : Type) : Type where
  onReceive : Option (List α) := none
  next : Option (List (TransitionEntry α β)) := none
deriving DecidableEq, Repr

/-- A flow document, restricted to the field the compiler reads. -/
structure Flow (α β : Type) : Type where
  catchAll : Option (CatchAll α β) := none
deriving DecidableEq, Repr

/-- A flow node `{ onEnter?, onReceive?, next? }`. -/
structure Node (α β : Type) : Type where
  onEnter : Option (List α) := none
  onReceive : Option (List α) := none
  next : Option (List (TransitionEntry α β)) := none
deriving DecidableEq, Repr

/-- `_.get(flow, 'catchAll.onReceive', []) || []`: a missing flow, a
missing `catchAll` or a missing/null `onReceive` all default to `[]`. -/
def getCatchAllOnReceive {α β : Type} (flow : Option (Flow α β)) : List α :=
  ((flow.bind Flow.catchAll).bind CatchAll.onReceive).getD []

/-- `_.get(flow, 'catchAll.next', []) || []`. -/
def getCatchAllNext {α β : Type} (flow : Option (Flow α β)) :
    List (TransitionEntry α β) :=
  ((flow.bind Flow.catchAll).bind CatchAll.next).getD []

namespace InstructionFactory

/-- `InstructionFactory.createOnEnter(node)`: maps each entry of
`node.onEnter` (defaulted to `[]`) to an `on-enter` instruction. -/
def createOnEnter {α β : Type} (node : Node α β) : List (Instruction α β) :=
  (node.onEnter.getD []).map fun x =>
    { type := InstructionType.onEnter, fn := some x }

/-- `InstructionFactory.createOnReceive(node, flow)`: returns `undefined`
(`none`) when `node.onReceive` is falsy (absent or null; a present empty
array is truthy in JavaScript), otherwise the flow catch-all on-receive
actions followed by the node-local ones, each mapped to an `on-receive`
instruction. -/
def createOnReceive {α β : Type} (node : Node α β) (flow : Option (Flow α β)) :
    Option (List (Instruction α β)) :=
  match node.onReceive with
  | none => none
  | some local_ =>
      some ((getCatchAllOnReceive flow ++ local_).map fun x =>
        { type := InstructionType.onReceive, fn := some x })

/-- `InstructionFactory.createTransition(node, flow)`: returns `[]` when
`node.next` is absent or empty, otherwise the flow catch-all transitions
followed by the node-local ones, each mapped to a `transition`
instruction carrying its condition (`fn`) and destination (`node`). -/
def createTransition {α β : Type} (node : Node α β) (flow : Option (Flow α β)) :
    List (Instruction α β) :=
  let nodeNext := node.next.getD []
  if nodeNext.isEmpty then []
  else
    (getCatchAllNext flow ++ nodeNext).map fun x =>
      { type := InstructionType.transition, fn := some x.condition,
        node := some x.node }

/-- `InstructionFactory.createWait()`: the single `{ type: 'wait' }`
instruction. -/
def createWait {α β : Type} : Instruction α β :=
  { type := InstructionType.wait }

end InstructionFactory

/-- A `ProcessingError` as consumed by `Botpress.formatError`: the
failing instruction, the error message, the owning flow and node names,
and the bot id used to select the per-bot logger.  The fields are
modelled as the strings they are interpolated as. -/
structure ProcessingError : Type where
  instruction : String
  message : String
  flowName : String
  nodeName : String
  botId : String
deriving DecidableEq, Repr

/-- `Botpress.formatError(err)`: the template string
`` `Error processing "${err.instruction}"\nErr: ${err.message}\nFlow: ${err.flowName}\nNode: ${err.nodeName}` ``. -/
def formatError (err : ProcessingError) : String :=
  "Error processing \x22" ++ err.instruction ++ "\x22\nErr: " ++ err.message ++
    "\nFlow: " ++ err.flowName ++ "\nNode: " ++ err.nodeName

/-- One entry of the flow logger: `(botId, message)`, recording a call
`flowLogger.forBot(botId).warn(message)`. -/
abbrev LogEntry : Type := String × String

/-- The `dialogEngine.onProcessingError` callback installed by
`Botpress.initializeServices`: formats the error and logs the message on
the bot-scoped flow logger.  The logger is modelled as the list of
entries written so far; the callback appends exactly one entry. -/
def onProcessingError (log : List LogEntry) (err : ProcessingError) :
    List LogEntry :=
  log ++ [(err.botId, formatError err)]

/-- `s` occurs inside `t` as a contiguous substring. -/
def ContainsStr (t s : String) : Prop :=
  ∃ a b : String, t = a ++ (s ++ b)

/-- The observable steps taken by the `onAfterIncomingMiddleware`
handler, in the order they are awaited.  `Event` is the incoming-event
type, `SessionId` the session-key type. -/
inductive MiddlewareOp (Event SessionId : Type) : Type
  | executeAfterHook (event : Event)
  | processEvent (sessionId : SessionId) (event : Event)
  | emitDone (target : String) (event : Event)
deriving DecidableEq, Repr

/-- The `eventEngine.onAfterIncomingMiddleware` handler installed by
`Botpress.initializeServices`, as the trace of awaited steps: run the
after-incoming-middleware hook, then
`decisionEngine.processEvent(SessionIdFactory.createIdFromEvent(event), event)`,
then emit `done.${event.target}`.  `createIdFromEvent` and the `target`
accessor are parameters (their code lives outside this file's sources). -/
def onAfterIncomingMiddleware {Event SessionId : Type}
    (createIdFromEvent : Event → SessionId) (target : Event → String)
    (event : Event) : List (MiddlewareOp Event SessionId) :=
  [MiddlewareOp.executeAfterHook event,
   MiddlewareOp.processEvent (createIdFromEvent event) event,
   MiddlewareOp.emitDone (target event) event]

end Botpress

namespace Botpress

open InstructionFactory

/-- C1: if `node.onReceive` is absent (or null), `createOnReceive`
returns the distinct undefined result (`none`), never an
empty-but-present list, whatever the flow's catch-all handlers are. -/
theorem createOnReceive_absent_undefined {α β : Type}
    (node : Node α β) (flow : Option (Flow α β))
    (h : node.onReceive = none) :
    createOnReceive node flow = none := by
  simp [createOnReceive, h]

/-- Witness for C1: a node without `onReceive`, against a flow whose
catch-all does define on-receive handlers, still compiles to `none`. -/
theorem createOnReceive_absent_undefined_witness :
    createOnReceive (α := Nat) (β := Nat)
      { onEnter := none, onReceive := none, next := none }
      (some { catchAll := some { onReceive := some [1, 2], next := none } }) =
      none :=
  createOnReceive_absent_undefined _ _ rfl

/-- C2: if `node.onReceive` is present (even empty), `createOnReceive`
returns a defined list: the flow catch-all on-receive actions, then the
node-local ones, each mapped in order to an `on-receive` instruction;
with both lists empty the result is `some []`, not `none`. -/
theorem createOnReceive_present_catchAll_first {α β : Type}
    (node : Node α β) (flow : Option (Flow α β)) (l : List α)
    (h : node.onReceive = some l) :
    createOnReceive node flow =
      some ((getCatchAllOnReceive flow).map
              (fun x => { type := InstructionType.onReceive, fn := some x }) ++
            l.map
              (fun x => { type := InstructionType.onReceive, fn := some x })) := by
  simp [createOnReceive, h]

/-- Witness for C2: catch-all actions `[1, 2]` compile strictly before
the node-local action `[7]`; and an empty-empty pair gives `some []`. -/
theorem createOnReceive_present_catchAll_first_witness :
    (createOnReceive (α := Nat) (β := Nat)
        { onEnter := none, onReceive := some [7], next := none }
        (some { catchAll := some { onReceive := some [1, 2], next := none } }) =
      some [{ type := InstructionType.onReceive, fn := some 1 },
            { type := InstructionType.onReceive, fn := some 2 },
            { type := InstructionType.onReceive, fn := some 7 }]) ∧
    (createOnReceive (α := Nat) (β := Nat)
        { onEnter := none, onReceive := some [], next := none } none =
      some []) :=
  ⟨createOnReceive_present_catchAll_first _ _ [7] rfl,
   createOnReceive_present_catchAll_first _ _ [] rfl⟩

/-- C3: if `node.next` is absent or empty, `createTransition` returns
the empty list, even when the flow defines catch-all transitions. -/
theorem createTransition_no_next_empty {α β : Type}
    (node : Node α β) (flow : Option (Flow α β))
    (h : node.next = none ∨ node.next = some []) :
    createTransition node flow = [] := by
  rcases h with h | h <;> simp [createTransition, h]

/-- Witness for C3: a node with `next: []`, inside a flow whose
catch-all does define transitions, still compiles to no transitions. -/
theorem createTransition_no_next_empty_witness :
    createTransition (α := Nat) (β := Nat)
      { onEnter := none, onReceive := none, next := some [] }
      (some { catchAll := some { onReceive := none, next := some [⟨5, 6⟩] } }) =
      [] :=
  createTransition_no_next_empty _ _ (Or.inr rfl)

/-- C4: if `node.next` is non-empty, `createTransition` returns one
`transition` instruction per flow catch-all entry followed by one per
node-local entry, in source order, each carrying the entry's condition
as `fn` and its destination as `node`. -/
theorem createTransition_nonempty_catchAll_first {α β : Type}
    (node : Node α β) (flow : Option (Flow α β))
    (l : List (TransitionEntry α β))
    (h : node.next = some l) (hne : l ≠ []) :
    createTransition node flow =
      (getCatchAllNext flow).map
        (fun x => { type := InstructionType.transition, fn := some x.condition,
                    node := some x.node }) ++
      l.map
        (fun x => { type := InstructionType.transition, fn := some x.condition,
                    node := some x.node }) := by
  cases l with
  | nil => exact absurd rfl hne
  | cons a as => simp [createTransition, h]

/-- Witness for C4: catch-all transition `⟨5, 6⟩` compiles strictly
before the node-local transitions `⟨1, 2⟩, ⟨3, 4⟩`, each carrying its
condition and destination. -/
theorem createTransition_nonempty_catchAll_first_witness :
    createTransition (α := Nat) (β := Nat)
      { onEnter := none, onReceive := none, next := some [⟨1, 2⟩, ⟨3, 4⟩] }
      (some { catchAll := some { onReceive := none, next := some [⟨5, 6⟩] } }) =
      [{ type := InstructionType.transition, fn := some 5, node := some 6 },
       { type := InstructionType.transition, fn := some 1, node := some 2 },
       { type := InstructionType.transition, fn := some 3, node := some 4 }] :=
  createTransition_nonempty_catchAll_first _ _ [⟨1, 2⟩, ⟨3, 4⟩] rfl (by simp)

/-- C5: `createOnEnter` yields exactly one `on-enter` instruction per
entry of `node.onEnter`, position by position in source order, and the
empty list when `onEnter` is absent. -/
theorem createOnEnter_pointwise {α β : Type} (node : Node α β) :
    (node.onEnter = none → createOnEnter node = []) ∧
    ∀ l, node.onEnter = some l →
      (createOnEnter node).length = l.length ∧
      ∀ i, (createOnEnter node).get? i =
        (l.get? i).map fun x => { type := InstructionType.onEnter, fn := some x } := by
  constructor
  · intro h; simp [createOnEnter, h]
  · intro l h
    constructor
    · simp [createOnEnter, h]
    · intro i; simp [createOnEnter, h]

/-- Witness for C5: a two-action `onEnter` list compiles to two
`on-enter` instructions in source order, and an absent one to `[]`. -/
theorem createOnEnter_pointwise_witness :
    (createOnEnter (α := Nat) (β := Nat)
        { onEnter := none, onReceive := none, next := none } = []) ∧
    (createOnEnter (α := Nat) (β := Nat)
        { onEnter := some [10, 20], onReceive := none, next := none }).get? 1 =
      some { type := InstructionType.onEnter, fn := some 20 } := by
  constructor
  · exact (createOnEnter_pointwise _).1 rfl
  · have h := ((createOnEnter_pointwise (α := Nat) (β := Nat)
      { onEnter := some [10, 20], onReceive := none, next := none }).2
      [10, 20] rfl).2 1
    simpa using h

/-- C6: the `onProcessingError` callback installed by
`initializeServices` never drops an error: it appends exactly one log
entry, whose message (built by `formatError`) contains the failing
instruction, the error message, the flow name and the node name. -/
theorem onProcessingError_logs_all_fields (log : List LogEntry)
    (err : ProcessingError) :
    onProcessingError log err = log ++ [(err.botId, formatError err)] ∧
    (onProcessingError log err).length = log.length + 1 ∧
    ContainsStr (formatError err) err.instruction ∧
    ContainsStr (formatError err) err.message ∧
    ContainsStr (formatError err) err.flowName ∧
    ContainsStr (formatError err) err.nodeName := by
  refine ⟨rfl, by simp [onProcessingError], ?_, ?_, ?_, ?_⟩
  · exact ⟨"Error processing \x22",
      "\x22\nErr: " ++ (err.message ++ ("\nFlow: " ++ (err.flowName ++
        ("\nNode: " ++ err.nodeName)))),
      by simp [formatError, String.append_assoc]⟩
  · exact ⟨"Error processing \x22" ++ (err.instruction ++ "\x22\nErr: "),
      "\nFlow: " ++ (err.flowName ++ ("\nNode: " ++ err.nodeName)),
      by simp [formatError, String.append_assoc]⟩
  · exact ⟨"Error processing \x22" ++ (err.instruction ++ ("\x22\nErr: " ++
      (err.message ++ "\nFlow: "))),
      "\nNode: " ++ err.nodeName,
      by simp [formatError, String.append_assoc]⟩
  · exact ⟨"Error processing \x22" ++ (err.instruction ++ ("\x22\nErr: " ++
      (err.message ++ ("\nFlow: " ++ (err.flowName ++ "\nNode: "))))),
      "",
      by simp [formatError, String.append_assoc]⟩

/-- C7: in the `onAfterIncomingMiddleware` handler, every
`processEvent` step carries exactly
`SessionIdFactory.createIdFromEvent event` as session id and the same
event, and the `processEvent` step is awaited strictly before the
per-event done notification is emitted. -/
theorem onAfterIncomingMiddleware_processEvent_order
    {Event SessionId : Type}
    (createIdFromEvent : Event → SessionId) (target : Event → String)
    (event : Event) :
    (∀ k sid e,
      (onAfterIncomingMiddleware createIdFromEvent target event).get? k =
        some (MiddlewareOp.processEvent sid e) →
      sid = createIdFromEvent event ∧ e = event) ∧
    ∃ i j, i < j ∧
      (onAfterIncomingMiddleware createIdFromEvent target event).get? i =
        some (MiddlewareOp.processEvent (createIdFromEvent event) event) ∧
      (onAfterIncomingMiddleware createIdFromEvent target event).get? j =
        some (MiddlewareOp.emitDone (target event) event) := by
  constructor
  · intro k sid e h
    match k with
    | 0 => simp [onAfterIncomingMiddleware] at h
    | 1 =>
        simp [onAfterIncomingMiddleware] at h
        exact ⟨h.1.symm, h.2.symm⟩
    | 2 => simp [onAfterIncomingMiddleware] at h
    | n + 3 => simp [onAfterIncomingMiddleware] at h
  · exact ⟨1, 2, by norm_num, rfl, rfl⟩

/-- Witness for C7: at a concrete event `5` with id derivation
`n + 1`, the session id seen at the `processEvent` step is `6` and the
event is unchanged. -/
theorem onAfterIncomingMiddleware_processEvent_order_witness :
    (6 : Nat) = (fun n : Nat => n + 1) 5 ∧ (5 : Nat) = 5 :=
  (onAfterIncomingMiddleware_processEvent_order
    (fun n : Nat => n + 1) (fun _ => "t") 5).1 1 6 5 rfl

/-- C8: compilation is deterministic (equal inputs give equal outputs
for all three compilers); the embedding is a pure function of the node
and flow, mirroring the source's non-mutating reads. -/
theorem instructionFactory_deterministic {α β : Type}
    (n₁ n₂ : Node α β) (f₁ f₂ : Option (Flow α β))
    (hn : n₁ = n₂) (hf : f₁ = f₂) :
    createOnEnter n₁ = createOnEnter n₂ ∧
    createOnReceive n₁ f₁ = createOnReceive n₂ f₂ ∧
    createTransition n₁ f₁ = createTransition n₂ f₂ := by
  subst hn; subst hf; exact ⟨rfl, rfl, rfl⟩

/-- Witness for C8: two invocations on the same concrete node/flow
agree. -/
theorem instructionFactory_deterministic_witness :
    createOnEnter (α := Nat) (β := Nat)
        { onEnter := some [1], onReceive := some [2], next := some [⟨3, 4⟩] } =
      createOnEnter
        { onEnter := some [1], onReceive := some [2], next := some [⟨3, 4⟩] } ∧
    createOnReceive (α := Nat) (β := Nat)
        { onEnter := some [1], onReceive := some [2], next := some [⟨3, 4⟩] }
        none =
      createOnReceive
        { onEnter := some [1], onReceive := some [2], next := some [⟨3, 4⟩] }
        none ∧
    createTransition (α := Nat) (β := Nat)
        { onEnter := some [1], onReceive := some [2], next := some [⟨3, 4⟩] }
        none =
      createTransition
        { onEnter := some [1], onReceive := some [2], next := some [⟨3, 4⟩] }
        none :=
  instructionFactory_deterministic _ _ _ _ rfl rfl

/-- C9: the compilers are total, and a null/absent flow, `catchAll`,
`catchAll.onReceive` or `catchAll.next` behaves exactly as explicit
empty lists; a null/absent `onEnter` or `next` is the empty list, and a
null/absent `onReceive` yields the undefined result. -/
theorem instructionFactory_null_defaults {α β : Type}
    (node : Node α β) (flow : Option (Flow α β))
    (hflow : flow = none ∨ flow = some { catchAll := none } ∨
      flow = some { catchAll := some { onReceive := none, next := none } }) :
    getCatchAllOnReceive flow = [] ∧
    getCatchAllNext flow = [] ∧
    (node.onEnter = none → createOnEnter node = []) ∧
    (node.onReceive = none → createOnReceive node flow = none) ∧
    (node.next = none → createTransition node flow = []) ∧
    createOnReceive node flow =
      createOnReceive node
        (some { catchAll := some { onReceive := some [], next := some [] } }) ∧
    createTransition node flow =
      createTransition node
        (some { catchAll := some { onReceive := some [], next := some [] } }) := by
  have hr : getCatchAllOnReceive flow = [] := by
    rcases hflow with h | h | h <;> subst h <;> rfl
  have hn : getCatchAllNext flow = [] := by
    rcases hflow with h | h | h <;> subst h <;> rfl
  refine ⟨hr, hn, ?_, ?_, ?_, ?_, ?_⟩
  · intro h; simp [createOnEnter, h]
  · intro h; simp [createOnReceive, h]
  · intro h; simp [createTransition, h]
  · have hr' : getCatchAllOnReceive (α := α) (β := β)
        (some { catchAll := some { onReceive := some [], next := some [] } }) = [] := rfl
    cases h : node.onReceive <;> simp [createOnReceive, h, hr, hr']
  · have hn' : getCatchAllNext (α := α) (β := β)
        (some { catchAll := some { onReceive := some [], next := some [] } }) = [] := rfl
    cases h : node.next <;> simp [createTransition, h, hn, hn']

/-- Witness for C9: a node with every field absent, against an absent
flow, compiles without error to `[]`, `none` and `[]`. -/
theorem instructionFactory_null_defaults_witness :
    getCatchAllOnReceive (α := Nat) (β := Nat) none = [] ∧
    getCatchAllNext (α := Nat) (β := Nat) none = [] ∧
    (createOnEnter (α := Nat) (β := Nat)
        { onEnter := none, onReceive := none, next := none } = []) ∧
    (createOnReceive (α := Nat) (β := Nat)
        { onEnter := none, onReceive := none, next := none } none = none) ∧
    (createTransition (α := Nat) (β := Nat)
        { onEnter := none, onReceive := none, next := none } none = []) := by
  have h := instructionFactory_null_defaults (α := Nat) (β := Nat)
    { onEnter := none, onReceive := none, next := none } none (Or.inl rfl)
  exact ⟨h.1, h.2.1, h.2.2.1 rfl, h.2.2.2.1 rfl, h.2.2.2.2.1 rfl⟩

/-- C10: every compiled instruction carries the type of its compiler —
`on-enter`, `on-receive` or `transition` — so no compiled list ever
contains a `wait`; `createWait` alone produces `{ type: 'wait' }`. -/
theorem instruction_types_invariant {α β : Type}
    (node : Node α β) (flow : Option (Flow α β)) :
    (∀ i ∈ createOnEnter node, i.type = InstructionType.onEnter) ∧
    (∀ l, createOnReceive node flow = some l →
      ∀ i ∈ l, i.type = InstructionType.onReceive) ∧
    (∀ i ∈ createTransition node flow, i.type = InstructionType.transition) ∧
    (∀ i ∈ createOnEnter node, i.type ≠ InstructionType.wait) ∧
    (∀ l, createOnReceive node flow = some l →
      ∀ i ∈ l, i.type ≠ InstructionType.wait) ∧
    (∀ i ∈ createTransition node flow, i.type ≠ InstructionType.wait) ∧
    createWait (α := α) (β := β) =
      { type := InstructionType.wait, fn := none, node := none } := by
  have h₁ : ∀ i ∈ createOnEnter node, i.type = InstructionType.onEnter := by
    intro i hi
    simp only [createOnEnter, List.mem_map] at hi
    obtain ⟨x, -, rfl⟩ := hi
    rfl
  have h₂ : ∀ l, createOnReceive node flow = some l →
      ∀ i ∈ l, i.type = InstructionType.onReceive := by
    intro l hl i hi
    cases h : node.onReceive with
    | none => simp [createOnReceive, h] at hl
    | some xs =>
        simp only [createOnReceive, h, Option.some.injEq] at hl
        subst hl
        simp only [List.mem_map] at hi
        obtain ⟨x, -, rfl⟩ := hi
        rfl
  have h₃ : ∀ i ∈ createTransition node flow,
      i.type = InstructionType.transition := by
    intro i hi
    rcases h : node.next with - | nx
    · simp [createTransition, h] at hi
    · cases nx with
      | nil => simp [createTransition, h] at hi
      | cons a as =>
          have hi' : i ∈ (getCatchAllNext flow ++ (a :: as)).map
              (fun x => ({ type := InstructionType.transition, fn := some x.condition, node := some x.node } : Instruction α β)) := by
            simpa [createTransition, h] using hi
          obtain ⟨x, -, rfl⟩ := List.mem_map.mp hi'
          rfl
  refine ⟨h₁, h₂, h₃, ?_, ?_, ?_, rfl⟩
  · intro i hi; rw [h₁ i hi]; intro h; cases h
  · intro l hl i hi; rw [h₂ l hl i hi]; intro h; cases h
  · intro i hi; rw [h₃ i hi]; intro h; cases h

/-- Witness for C10: the instruction types at concrete inputs. -/
theorem instruction_types_invariant_witness :
    ({ type := InstructionType.onEnter, fn := some 1,
        node := none } : Instruction Nat Nat).type = InstructionType.onEnter ∧
    ({ type := InstructionType.transition, fn := some 3,
        node := some 4 } : Instruction Nat Nat).type ≠ InstructionType.wait ∧
    createWait (α := Nat) (β := Nat) =
      { type := InstructionType.wait, fn := none, node := none } := by
  have h := instruction_types_invariant (α := Nat) (β := Nat)
    { onEnter := some [1], onReceive := none, next := some [⟨3, 4⟩] } none
  refine ⟨h.1 _ ?_, h.2.2.2.2.2.1 _ ?_, h.2.2.2.2.2.2⟩
  · decide
  · decide

end Botpress
